import Mathlib

/-!
Verification of the slate desktop application core (src/src-tauri/src/main.rs).

The program has two request handlers:
* `generate_site`: builds a prompt, POSTs it to an Ollama server, and extracts
  an html/css/js triple from the response text via `extract_json_triple`;
* `save_zip`: opens a blocking save dialog and writes the given bytes.

Strings are modelled as `List Char` (Rust `str` at char granularity; the only
byte-index operations in the source, `find`/`rfind`/slicing on `'{'`/`'}'`,
are boundary-safe and order-isomorphic to char indices, so this is faithful).
JSON parsing by `serde_json::from_str` is modelled by an executable JSON
parser `Json.parse` following the JSON grammar serde_json implements
(whitespace between tokens, string escapes with surrogate pairs, rejection of
unescaped control characters, no trailing data). Number values are kept as
their lexemes: no claim depends on numeric value, only on a number not being
a string.
-/

/-- Characters serde_json treats as insignificant whitespace between tokens. -/
def isJsonWs (c : Char) : Bool :=
  c = ' ' || c = '\t' || c = '\n' || c = '\r'

/-- Drop leading JSON whitespace. -/
def skipWs : List Char → List Char
  | [] => []
  | c :: cs => if isJsonWs c then skipWs cs else c :: cs

/-- Value of a hexadecimal digit, as used in \uXXXX escapes. -/
def hexVal (c : Char) : Option Nat :=
  if '0' ≤ c ∧ c ≤ '9' then some (c.toNat - '0'.toNat)
  else if 'a' ≤ c ∧ c ≤ 'f' then some (c.toNat - 'a'.toNat + 10)
  else if 'A' ≤ c ∧ c ≤ 'F' then some (c.toNat - 'A'.toNat + 10)
  else none

/-- JSON values. Object fields keep textual order; lookups take the last
binding of a key, matching the overwrite-on-insert behaviour of the map
serde_json builds. Numbers are kept as their source lexeme. -/
inductive Json where
  | null
  | bool (b : Bool)
  | num (lexeme : List Char)
  | str (s : List Char)
  | arr (elems : List Json)
  | obj (fields : List (List Char × Json))

/-- Body of a JSON string after the opening quote: returns the decoded
content and the input remaining after the closing quote. Mirrors serde_json:
escapes \" \\ \/ \b \f \n \r \t \uXXXX (with surrogate pairs), failure on
lone surrogates, on unescaped control characters and on a missing close. -/
def parseStringBody : List Char → Option (List Char × List Char)
  | [] => none
  | '"' :: rest => some ([], rest)
  | '\\' :: rest =>
    match rest with
    | 'u' :: h1 :: h2 :: h3 :: h4 :: rest2 =>
      match hexVal h1, hexVal h2, hexVal h3, hexVal h4 with
      | some a, some b, some c, some d =>
        let n := ((a * 16 + b) * 16 + c) * 16 + d
        if 0xD800 ≤ n ∧ n ≤ 0xDBFF then
          match rest2 with
          | '\\' :: 'u' :: g1 :: g2 :: g3 :: g4 :: rest3 =>
            match hexVal g1, hexVal g2, hexVal g3, hexVal g4 with
            | some a2, some b2, some c2, some d2 =>
              let m := ((a2 * 16 + b2) * 16 + c2) * 16 + d2
              if 0xDC00 ≤ m ∧ m ≤ 0xDFFF then
                let code := 0x10000 + (n - 0xD800) * 0x400 + (m - 0xDC00)
                match parseStringBody rest3 with
                | some (s, r) => some (Char.ofNat code :: s, r)
                | none => none
              else none
            | _, _, _, _ => none
          | _ => none
        else if 0xDC00 ≤ n ∧ n ≤ 0xDFFF then none
        else
          match parseStringBody rest2 with
          | some (s, r) => some (Char.ofNat n :: s, r)
          | none => none
      | _, _, _, _ => none
    | e :: rest2 =>
      let dec : Option Char :=
        if e = '"' then some '"'
        else if e = '\\' then some '\\'
        else if e = '/' then some '/'
        else if e = 'b' then some (Char.ofNat 8)
        else if e = 'f' then some (Char.ofNat 12)
        else if e = 'n' then some '\n'
        else if e = 'r' then some (Char.ofNat 13)
        else if e = 't' then some '\t'
        else none
      match dec with
      | some d =>
        match parseStringBody rest2 with
        | some (s, r) => some (d :: s, r)
        | none => none
      | none => none
    | [] => none
  | c :: rest =>
    if c.toNat < 0x20 then none
    else
      match parseStringBody rest with
      | some (s, r) => some (c :: s, r)
      | none => none

/-- Longest prefix of decimal digits, with the rest of the input. -/
def spanDigits : List Char → List Char × List Char
  | [] => ([], [])
  | c :: cs =>
    if c.isDigit then
      let (ds, r) := spanDigits cs
      (c :: ds, r)
    else ([], c :: cs)

/-- JSON number lexeme: -?(0|[1-9][0-9]*)(.[0-9]+)?([eE][+-]?[0-9]+)?.
Returns the lexeme and the remaining input. -/
def parseNumberLex (input : List Char) : Option (List Char × List Char) :=
  let (sign, afterSign) :=
    match input with
    | '-' :: r => (['-'], r)
    | _ => (([] : List Char), input)
  match afterSign with
  | [] => none
  | c :: cs =>
    if c = '0' then some (sign ++ ['0'], cs)
    else if c.isDigit then
      let (ds, r) := spanDigits cs
      some (sign ++ c :: ds, r)
    else none

/-- Optional fraction part: .digit+ when present. -/
def parseFrac (input : List Char) : Option (List Char × List Char) :=
  match input with
  | '.' :: r =>
    match spanDigits r with
    | ([], _) => none
    | (ds, r2) => some ('.' :: ds, r2)
  | _ => some ([], input)

/-- Optional exponent part: [eE][+-]?digit+ when present. -/
def parseExp (input : List Char) : Option (List Char × List Char) :=
  match input with
  | c :: r =>
    if c = 'e' ∨ c = 'E' then
      let (sgn, r2) :=
        match r with
        | '+' :: r3 => (['+'], r3)
        | '-' :: r3 => (['-'], r3)
        | _ => (([] : List Char), r)
      match spanDigits r2 with
      | ([], _) => none
      | (ds, r3) => some (c :: sgn ++ ds, r3)
    else some ([], input)
  | [] => some ([], input)

/-- Full JSON number: integer part, optional fraction, optional exponent. -/
def parseNumber (input : List Char) : Option (List Char × List Char) :=
  match parseNumberLex input with
  | none => none
  | some (intPart, r1) =>
    match parseFrac r1 with
    | none => none
    | some (fracPart, r2) =>
      match parseExp r2 with
      | none => none
      | some (expPart, r3) => some (intPart ++ fracPart ++ expPart, r3)

mutual

/-- One JSON value (leading whitespace allowed), returning the rest of the
input. Fuel bounds nesting depth; `Json.parse` supplies enough for any
input. -/
def parseValue : Nat → List Char → Option (Json × List Char)
  | 0, _ => none
  | fuel + 1, input =>
    match skipWs input with
    | [] => none
    | c :: rest =>
      if c = 'n' then
        match rest with
        | 'u' :: 'l' :: 'l' :: r => some (.null, r)
        | _ => none
      else if c = 't' then
        match rest with
        | 'r' :: 'u' :: 'e' :: r => some (.bool true, r)
        | _ => none
      else if c = 'f' then
        match rest with
        | 'a' :: 'l' :: 's' :: 'e' :: r => some (.bool false, r)
        | _ => none
      else if c = '"' then
        match parseStringBody rest with
        | some (s, r) => some (.str s, r)
        | none => none
      else if c = '[' then
        match skipWs rest with
        | ']' :: r => some (.arr [], r)
        | other => parseArrayItems fuel other
      else if c = '{' then
        match skipWs rest with
        | '}' :: r => some (.obj [], r)
        | other => parseObjectItems fuel other
      else if c = '-' ∨ c.isDigit then
        match parseNumber (c :: rest) with
        | some (lex, r) => some (.num lex, r)
        | none => none
      else none

/-- Elements of a non-empty array, called after `[` (and any whitespace);
consumes through the closing `]`. -/
def parseArrayItems : Nat → List Char → Option (Json × List Char)
  | 0, _ => none
  | fuel + 1, input =>
    match parseValue fuel input with
    | none => none
    | some (v, r) =>
      match skipWs r with
      | ',' :: r2 =>
        match parseArrayItems fuel r2 with
        | some (.arr vs, r3) => some (.arr (v :: vs), r3)
        | _ => none
      | ']' :: r2 => some (.arr [v], r2)
      | _ => none

/-- Members of a non-empty object, called after `{` (and any whitespace);
consumes through the closing `}`. Keys must be strings; no trailing comma. -/
def parseObjectItems : Nat → List Char → Option (Json × List Char)
  | 0, _ => none
  | fuel + 1, input =>
    match input with
    | '"' :: r =>
      match parseStringBody r with
      | none => none
      | some (k, r1) =>
        match skipWs r1 with
        | ':' :: r2 =>
          match parseValue fuel r2 with
          | none => none
          | some (v, r3) =>
            match skipWs r3 with
            | ',' :: r4 =>
              match parseObjectItems fuel (skipWs r4) with
              | some (.obj fs, r5) => some (.obj ((k, v) :: fs), r5)
              | _ => none
            | '}' :: r4 => some (.obj [(k, v)], r4)
            | _ => none
        | _ => none
    | _ => none

end

/-- serde_json::from_str on a text: one JSON value, surrounded only by
whitespace; anything else trailing is an error. -/
def Json.parse (s : List Char) : Option Json :=
  match parseValue (s.length + 1) s with
  | some (v, rest) => if skipWs rest = [] then some v else none
  | none => none

/-- Last binding of a key in an object field list (later duplicate keys
overwrite earlier ones in the map serde_json builds). -/
def lookupLast : List (List Char × Json) → List Char → Option Json
  | [], _ => none
  | (k1, v) :: rest, k =>
    match lookupLast rest k with
    | some r => some r
    | none => if k1 = k then some v else none

/-- serde_json `Value::get(key)`: a field of an object, `none` on any other
value. -/
def Json.get (v : Json) (k : List Char) : Option Json :=
  match v with
  | .obj fields => lookupLast fields k
  | _ => none

/-- serde_json `Value::as_str`. -/
def Json.asStr : Json → Option (List Char)
  | .str s => some s
  | _ => none

/-- The generated website triple (struct `Triple` in main.rs). -/
structure Triple where
  html : List Char
  css : List Char
  js : List Char
deriving DecidableEq

/-- Errors `extract_json_triple` can produce. `jsonParse` stands for a
serde_json deserialization error propagated by `?` (its message text is
abstracted); the others carry the exact `anyhow!` message structure. -/
inductive ExtractErr where
  | noJsonStart
  | noJsonEnd
  | jsonParse
  | missing (key : List Char)
deriving DecidableEq

/-- Result of `extract_json_triple`. `panicked` models a Rust panic: the
slice expression `s[start..=end]` panics when `start > end + 1`. -/
inductive ExtractResult where
  | ok (t : Triple)
  | err (e : ExtractErr)
  | panicked
deriving DecidableEq

/-- Rust `str::find` (char-index model): index of the first char satisfying
the predicate. -/
def strFind (p : Char → Bool) : List Char → Option Nat
  | [] => none
  | c :: cs => if p c then some 0 else Option.map (· + 1) (strFind p cs)

/-- Rust `str::rfind` (char-index model): index of the last char satisfying
the predicate. -/
def strRFind (p : Char → Bool) (s : List Char) : Option Nat :=
  Option.map (fun i => s.length - 1 - i) (strFind p s.reverse)

/-- Field extraction of main.rs lines 39-42: each of html/css/js read with
`v.get(k).and_then(as_str)`, first failure producing `missing <k>`. -/
def extractFields (v : Json) : ExtractResult :=
  match (v.get ("html".data)).bind Json.asStr with
  | none => .err (.missing ("html".data))
  | some html =>
    match (v.get ("css".data)).bind Json.asStr with
    | none => .err (.missing ("css".data))
    | some css =>
      match (v.get ("js".data)).bind Json.asStr with
      | none => .err (.missing ("js".data))
      | some js => .ok ⟨html, css, js⟩

/-- fn extract_json_triple (main.rs lines 34-43): locate the first `{` and
the last `}`, slice inclusively (panicking like Rust when the slice range is
reversed by more than one), parse the slice as JSON and read the three
fields. -/
def extract_json_triple (s : List Char) : ExtractResult :=
  match strFind (fun c => c = '{') s with
  | none => .err .noJsonStart
  | some start =>
    match strRFind (fun c => c = '}') s with
    | none => .err .noJsonEnd
    | some stop =>
      if stop + 1 < start then .panicked
      else
        match Json.parse ((s.drop start).take (stop + 1 - start)) with
        | none => .err .jsonParse
        | some v => extractFields v

/-- The first key in the order html, css, js that `extractFields` fails to
read as a string from the given value, whether because the key is absent or
because its value is not a string. -/
def firstBadKey (v : Json) : Option (List Char) :=
  if ((v.get ("html".data)).bind Json.asStr).isNone then some ("html".data)
  else if ((v.get ("css".data)).bind Json.asStr).isNone then some ("css".data)
  else if ((v.get ("js".data)).bind Json.asStr).isNone then some ("js".data)
  else none

/-! ### The site generator (`generate_site`, main.rs lines 46-73) -/

/-- const SYSTEM_INSTRUCTIONS: the fixed system-instruction block (a Rust
raw string beginning and ending with a newline). -/
def SYSTEM_INSTRUCTIONS : List Char :=
  ("\nYou are an expert front-end web generator.\nOUTPUT FORMAT (MANDATORY):\nReturn ONLY a JSON object with EXACT keys: \"html\", \"css\", \"js\". No commentary.\n- \"html\": full HTML allowed, semantic and accessible.\n- \"css\": plain CSS (no <style> tag).\n- \"js\": plain JS (no <script> tag).\nConstraints: mobile-first, responsive, no external CDNs, self-contained, no inline events; use addEventListener.\n").data

/-- struct GenerateArgs. The f32 temperature is passed through the program
uninterpreted and only ever serialized into the request JSON, so it is
modelled by its JSON number rendering. -/
structure GenerateArgs where
  prompt : List Char
  model : List Char
  temperature : List Char

/-- The one outgoing HTTP request: method, URL and JSON body. -/
structure HttpRequest where
  method : List Char
  url : List Char
  body : Json

/-- An HTTP response as `generate_site` observes it: status code and raw
body text. -/
structure HttpResponse where
  status : Nat
  body : List Char

/-- Errors of `generate_site` (each formatted into a `String` in the
source): request send failure, non-success status, body that does not
decode as `OllamaResp`, and a propagated extraction error. -/
inductive GenErr where
  | requestFailed (msg : List Char)
  | errorStatus (status : Nat)
  | invalidJson
  | parseError (e : ExtractErr)
deriving DecidableEq

/-- Result of `generate_site`; `panicked` propagates a panic of
`extract_json_triple`. -/
inductive GenResult where
  | ok (t : Triple)
  | err (e : GenErr)
  | panicked
deriving DecidableEq

/-- Observable outcome of a `generate_site` call: the request it sent and
the value it returned. -/
structure GenOutcome where
  request : HttpRequest
  result : GenResult

/-- reqwest `StatusCode::is_success`: 200 ≤ status ≤ 299. -/
def statusIsSuccess (status : Nat) : Bool :=
  200 ≤ status && status < 300

/-- serde derive for struct OllamaResp { response: String }: the body must
be a JSON object binding "response" to a string (other fields are
ignored). -/
def decodeOllamaResp (body : List Char) : Option (List Char) :=
  match Json.parse body with
  | some v => (v.get ("response".data)).bind Json.asStr
  | none => none

/-- fn generate_site (main.rs lines 46-73). The network is an oracle from
the request to either a send error or a response; the OLLAMA_BASE_URL
environment variable is an explicit optional argument. -/
def generate_site (args : GenerateArgs) (env_OLLAMA_BASE_URL : Option (List Char))
    (net : HttpRequest → Except (List Char) HttpResponse) : GenOutcome :=
  let base := match env_OLLAMA_BASE_URL with
    | some b => b
    | none => "http://127.0.0.1:11434".data
  let body := Json.obj
    [("model".data, Json.str args.model),
     ("prompt".data, Json.str
        (SYSTEM_INSTRUCTIONS ++ "\n\nUSER PROMPT:\n".data ++ args.prompt)),
     ("stream".data, Json.bool false),
     ("options".data, Json.obj [("temperature".data, Json.num args.temperature)])]
  let req : HttpRequest :=
    { method := "POST".data, url := base ++ "/api/generate".data, body := body }
  { request := req
    result :=
      match net req with
      | .error e => .err (.requestFailed e)
      | .ok res =>
        if statusIsSuccess res.status then
          match decodeOllamaResp res.body with
          | none => .err .invalidJson
          | some response =>
            match extract_json_triple response with
            | .ok t => .ok t
            | .err e => .err (.parseError e)
            | .panicked => .panicked
        else .err (.errorStatus res.status) }

/-! ### The file saver (`save_zip`, main.rs lines 80-105) -/

/-- tauri_plugin_dialog FilePath: either a plain path or a URL; a URL is
abstracted by the result of its `to_file_path` conversion. -/
inductive DialogFilePath where
  | path (p : List Char)
  | url (toFilePath : Option (List Char))

/-- The filesystem as a map from paths to file contents (byte values). -/
def FS := List Char → Option (List Nat)

/-- Observable outcome of a `save_zip` call: the name the save dialog was
pre-filled with, the returned value, and the filesystem afterwards. -/
structure SaveOutcome where
  prefill : List Char
  result : Except (List Char) (List Char)
  fs : FS

/-- The name the save dialog is pre-filled with:
`default_name.unwrap_or_else(|| "site.zip")`. -/
def dialogDefaultName (default_name : Option (List Char)) : List Char :=
  match default_name with
  | some n => n
  | none => "site.zip".data

/-- Resolution of the dialog's FilePath to a filesystem path (the `match
file_path` of the source): a URL that cannot convert is the "Invalid file
URL" error. -/
def resolveDialogPath (filePath : DialogFilePath) : Except (List Char) (List Char) :=
  match filePath with
  | .path p => .ok p
  | .url conv =>
    match conv with
    | some p => .ok p
    | none => .error ("Invalid file URL".data)

/-- fn save_zip (main.rs lines 80-105). The blocking dialog is an oracle
from the pre-filled file name to the user's choice (`none` = cancel);
`writeErr` is the outcome of `std::fs::write` (`none` = success; on failure
the model leaves the filesystem unchanged, no claim concerns the partial
contents a failed write may leave). `to_string_lossy` is the identity in
the char-list model of paths. -/
def save_zip (default_name : Option (List Char)) (bytes : List Nat)
    (dialog : List Char → Option DialogFilePath)
    (writeErr : Option (List Char)) (fs : FS) : SaveOutcome :=
  match dialog (dialogDefaultName default_name) with
  | none => ⟨dialogDefaultName default_name, .error ("canceled".data), fs⟩
  | some filePath =>
    match resolveDialogPath filePath with
    | .error e => ⟨dialogDefaultName default_name, .error e, fs⟩
    | .ok p =>
      match writeErr with
      | some e =>
        ⟨dialogDefaultName default_name,
          .error ("write failed: ".data ++ e), fs⟩
      | none =>
        ⟨dialogDefaultName default_name, .ok p,
          fun q => if q = p then some bytes else fs q⟩


/-! ### Lemmas about `strFind` and `strRFind` -/

theorem strFind_eq_none_of (p : Char → Bool) (s : List Char)
    (h : ∀ c ∈ s, p c = false) : strFind p s = none := by
  induction s with
  | nil => rfl
  | cons c cs ih =>
    have hc : p c = false := h c (by simp)
    simp [strFind, hc, ih (fun x hx => h x (by simp [hx]))]

theorem strFind_first (p : Char → Bool) (pre rest : List Char) (c : Char)
    (hpre : ∀ x ∈ pre, p x = false) (hc : p c = true) :
    strFind p (pre ++ c :: rest) = some pre.length := by
  induction pre with
  | nil => simp [strFind, hc]
  | cons a as ih =>
    have ha : p a = false := hpre a (by simp)
    simp [strFind, ha, ih (fun x hx => hpre x (by simp [hx]))]

/-- Localization of `extract_json_triple` on a text decomposed around its
brace-delimited slice `t`: the parsed slice is exactly `t`, so the result is
whatever JSON parsing plus field extraction yields on `t`. -/
theorem extract_append (pre t post : List Char)
    (hpre : ∀ c ∈ pre, c ≠ '{')
    (hpost : ∀ c ∈ post, c ≠ '}')
    (hhead : t.head? = some '{')
    (hlast : t.getLast? = some '}') :
    extract_json_triple (pre ++ t ++ post) =
      match Json.parse t with
      | none => ExtractResult.err .jsonParse
      | some v => extractFields v := by
  obtain ⟨t1, rfl⟩ : ∃ t1, t = '{' :: t1 := by
    cases t with
    | nil => simp at hhead
    | cons a t1 =>
      simp only [List.head?_cons, Option.some.injEq] at hhead
      exact ⟨t1, by rw [hhead]⟩
  obtain ⟨u, hu⟩ : ∃ u, ('{' :: t1).reverse = '}' :: u := by
    have h1 : ('{' :: t1).reverse.head? = some '}' := by
      rw [List.head?_reverse]; exact hlast
    cases hr : ('{' :: t1).reverse with
    | nil => rw [hr] at h1; simp at h1
    | cons b v =>
      rw [hr] at h1
      simp only [List.head?_cons, Option.some.injEq] at h1
      exact ⟨v, by rw [h1]⟩
  have hfind : strFind (fun c => c = '{') (pre ++ ('{' :: t1) ++ post) =
      some pre.length := by
    have hshape : pre ++ ('{' :: t1) ++ post = pre ++ '{' :: (t1 ++ post) := by
      simp
    rw [hshape]
    exact strFind_first _ pre _ '{'
      (fun x hx => decide_eq_false (hpre x hx)) (by simp)
  have hrfind : strRFind (fun c => c = '}') (pre ++ ('{' :: t1) ++ post) =
      some ((pre ++ ('{' :: t1) ++ post).length - 1 - post.length) := by
    unfold strRFind
    have hsr : (pre ++ ('{' :: t1) ++ post).reverse =
        post.reverse ++ '}' :: (u ++ pre.reverse) := by
      rw [List.append_assoc, List.reverse_append, List.reverse_append, hu]
      simp
    rw [hsr, strFind_first _ post.reverse _ '}'
      (fun x hx => decide_eq_false (hpost x (List.mem_reverse.mp hx))) (by simp)]
    simp
  have hlen : (pre ++ ('{' :: t1) ++ post).length =
      pre.length + (t1.length + 1) + post.length := by
    simp only [List.length_append, List.length_cons]
  have hdrop : (pre ++ ('{' :: t1) ++ post).drop pre.length =
      ('{' :: t1) ++ post := by
    rw [List.append_assoc]
    exact List.drop_left _ _
  have htake : (('{' :: t1) ++ post).take (t1.length + 1) = '{' :: t1 :=
    List.take_left ('{' :: t1) post
  have harith : (pre ++ ('{' :: t1) ++ post).length - 1 - post.length + 1
      - pre.length = t1.length + 1 := by omega
  have hnopanic : ¬ ((pre ++ ('{' :: t1) ++ post).length - 1 - post.length + 1
      < pre.length) := by omega
  unfold extract_json_triple
  rw [hfind, hrfind]
  simp only [hnopanic, if_false, harith, hdrop, htake]

/-! ### Claim theorems about `extract_json_triple` -/

/-- Common step for the missing-field claims: field extraction on a parsed
value reports the first key in the order html, css, js that is not bound to
a string. -/
theorem extractFields_firstBad (v : Json) (k : List Char)
    (hbad : firstBadKey v = some k) :
    extractFields v = .err (.missing k) := by
  unfold firstBadKey at hbad
  unfold extractFields
  cases hh : (v.get ("html".data)).bind Json.asStr with
  | none =>
    rw [hh] at hbad
    simp only [Option.isNone_none, if_true, Option.some.injEq] at hbad
    subst hbad
    rfl
  | some sh =>
    rw [hh] at hbad
    simp only [Option.isNone_some, Bool.false_eq_true, if_false] at hbad
    cases hc : (v.get ("css".data)).bind Json.asStr with
    | none =>
      rw [hc] at hbad
      simp only [Option.isNone_none, if_true, Option.some.injEq] at hbad
      subst hbad
      rfl
    | some sc =>
      rw [hc] at hbad
      simp only [Option.isNone_some, Bool.false_eq_true, if_false] at hbad
      cases hj : (v.get ("js".data)).bind Json.asStr with
      | none =>
        rw [hj] at hbad
        simp only [Option.isNone_none, if_true, Option.some.injEq] at hbad
        subst hbad
        rfl
      | some sj =>
        rw [hj] at hbad
        simp at hbad

/-- C1: for every response text containing exactly one well-formed JSON
object with string fields html, css and js, whose opening brace is the first
`{` of the text and whose closing brace is the last `}`, extract_json_triple
returns Ok with exactly those three string values, unmodified. The text is
decomposed as `pre ++ t ++ post` where `t` is that JSON object. -/
theorem extract_wellformed_returns_triple
    (pre t post html css js : List Char) (v : Json)
    (hpre : ∀ c ∈ pre, c ≠ '{')
    (hpost : ∀ c ∈ post, c ≠ '}')
    (hhead : t.head? = some '{')
    (hlast : t.getLast? = some '}')
    (hparse : Json.parse t = some v)
    (hh : v.get ("html".data) = some (.str html))
    (hc : v.get ("css".data) = some (.str css))
    (hj : v.get ("js".data) = some (.str js)) :
    extract_json_triple (pre ++ t ++ post) = .ok ⟨html, css, js⟩ := by
  rw [extract_append pre t post hpre hpost hhead hlast, hparse]
  show extractFields v = ExtractResult.ok ⟨html, css, js⟩
  unfold extractFields
  rw [hh, hc, hj]
  rfl

/-- Witness for C1, on the example of the specification: commentary around
the JSON object is discarded and the three fields come back unmodified. -/
theorem extract_wellformed_returns_triple_witness :
    extract_json_triple ("Sure! ".data ++
        "\x7b\"html\":\"<h1>Hi</h1>\",\"css\":\"h1\x7bcolor:red\x7d\",\"js\":\"\"\x7d".data ++
        " Hope that helps!".data) =
      .ok ⟨"<h1>Hi</h1>".data, "h1\x7bcolor:red\x7d".data, "".data⟩ :=
  extract_wellformed_returns_triple
    ("Sure! ".data)
    ("\x7b\"html\":\"<h1>Hi</h1>\",\"css\":\"h1\x7bcolor:red\x7d\",\"js\":\"\"\x7d".data)
    (" Hope that helps!".data)
    ("<h1>Hi</h1>".data) ("h1\x7bcolor:red\x7d".data) ("".data)
    (Json.obj [("html".data, Json.str ("<h1>Hi</h1>".data)),
      ("css".data, Json.str ("h1\x7bcolor:red\x7d".data)),
      ("js".data, Json.str ("".data))])
    (by decide) (by decide) rfl rfl rfl rfl rfl rfl

/-- C2: for every input with no `{` character, or with no `}` character,
extract_json_triple returns an Err value (one of the two "No JSON" errors);
in particular it does not panic and does not return a triple. -/
theorem extract_no_brace_errors (s : List Char)
    (hs : (∀ c ∈ s, c ≠ '{') ∨ (∀ c ∈ s, c ≠ '}')) :
    extract_json_triple s = .err .noJsonStart ∨
      extract_json_triple s = .err .noJsonEnd := by
  cases hfind : strFind (fun c => c = '{') s with
  | none =>
    left
    unfold extract_json_triple
    rw [hfind]
  | some start =>
    have hs2 : ∀ c ∈ s, c ≠ '}' := by
      rcases hs with h | h
      · exfalso
        rw [strFind_eq_none_of _ _ (fun c hc => decide_eq_false (h c hc))]
          at hfind
        exact Option.noConfusion hfind
      · exact h
    right
    have hrf : strRFind (fun c => c = '}') s = none := by
      unfold strRFind
      rw [strFind_eq_none_of _ _
        (fun c hc => decide_eq_false (hs2 c (List.mem_reverse.mp hc)))]
      rfl
    unfold extract_json_triple
    simp only [hfind, hrf]

/-- Witness for C2 on a brace-free input. -/
theorem extract_no_brace_errors_witness :
    extract_json_triple ("no braces at all".data) = .err .noJsonStart ∨
      extract_json_triple ("no braces at all".data) = .err .noJsonEnd :=
  extract_no_brace_errors ("no braces at all".data) (Or.inl (by decide))

/-- C3 (code bug): on the input "} {" the last `}` precedes the first `{`
by two byte positions, so the source expression s[start..=end] is a reversed
slice range and the Rust code panics instead of returning an Err; the
embedding records this as `panicked`. -/
theorem extract_panics_on_reversed_brace_order :
    extract_json_triple ("\x7d \x7b".data) = .panicked := by rfl

/-- Counterexample for C4 as stated: in `{"html":1}` the key html is
present (so the first genuinely missing key is css), the slice parses as
valid JSON, yet the error names html, not css — the code reports the first
key it cannot read as a string, not the first absent key. -/
theorem extract_first_missing_key_counterexample :
    Json.parse ("\x7b\"html\":1\x7d".data) =
      some (Json.obj [("html".data, Json.num ['1'])]) ∧
    (Json.obj [("html".data, Json.num ['1'])]).get ("html".data) =
      some (Json.num ['1']) ∧
    (Json.obj [("html".data, Json.num ['1'])]).get ("css".data) = none ∧
    extract_json_triple ("\x7b\"html\":1\x7d".data) =
      .err (.missing ("html".data)) ∧
    ("html".data : List Char) ≠ ("css".data : List Char) :=
  ⟨rfl, rfl, rfl, rfl, by decide⟩

/-- C4 (amended): for every input whose brace-delimited slice parses as
valid JSON, if at least one of html, css, js is absent or not bound to a
string, extract_json_triple returns the error "missing <k>" where k is the
first key in the order html, css, js that is absent or not a string — not a
generic JSON parse error. -/
theorem extract_names_first_unreadable_key
    (pre t post k : List Char) (v : Json)
    (hpre : ∀ c ∈ pre, c ≠ '{')
    (hpost : ∀ c ∈ post, c ≠ '}')
    (hhead : t.head? = some '{')
    (hlast : t.getLast? = some '}')
    (hparse : Json.parse t = some v)
    (hbad : firstBadKey v = some k) :
    extract_json_triple (pre ++ t ++ post) = .err (.missing k) := by
  rw [extract_append pre t post hpre hpost hhead hlast, hparse]
  show extractFields v = ExtractResult.err (ExtractErr.missing k)
  exact extractFields_firstBad v k hbad

/-- Witness for C4 (amended): `{"html":"a"}` lacks css, and the error
names css. -/
theorem extract_names_first_unreadable_key_witness :
    extract_json_triple
        (([] : List Char) ++ "\x7b\"html\":\"a\"\x7d".data ++ ([] : List Char)) =
      .err (.missing ("css".data)) :=
  extract_names_first_unreadable_key
    [] ("\x7b\"html\":\"a\"\x7d".data) [] ("css".data)
    (Json.obj [("html".data, Json.str ("a".data))])
    (by decide) (by decide) rfl rfl rfl rfl

/-- C10: when the brace-delimited slice parses as a JSON object in which the
first failing key (order html, css, js) is present but bound to a non-string
value, extract_json_triple fails with exactly the same "missing <key>" error
as when that key is absent entirely: the error does not distinguish a
wrong-typed value from a missing key. -/
theorem extract_nonstring_field_reported_missing
    (pre t post k : List Char) (v w : Json)
    (hpre : ∀ c ∈ pre, c ≠ '{')
    (hpost : ∀ c ∈ post, c ≠ '}')
    (hhead : t.head? = some '{')
    (hlast : t.getLast? = some '}')
    (hparse : Json.parse t = some v)
    (hbad : firstBadKey v = some k)
    (_hpresent : v.get k = some w)
    (_hnonstr : w.asStr = none) :
    extract_json_triple (pre ++ t ++ post) = .err (.missing k) := by
  rw [extract_append pre t post hpre hpost hhead hlast, hparse]
  show extractFields v = ExtractResult.err (ExtractErr.missing k)
  exact extractFields_firstBad v k hbad

/-- Witness for C10: in `{"html":true}` the key html is present but bound
to a boolean, and the error is the same "missing html" as for an absent
key. -/
theorem extract_nonstring_field_reported_missing_witness :
    extract_json_triple
        (([] : List Char) ++ "\x7b\"html\":true\x7d".data ++ ([] : List Char)) =
      .err (.missing ("html".data)) :=
  extract_nonstring_field_reported_missing
    [] ("\x7b\"html\":true\x7d".data) [] ("html".data)
    (Json.obj [("html".data, Json.bool true)]) (Json.bool true)
    (by decide) (by decide) rfl rfl rfl rfl rfl rfl

/-! ### Claim theorems about `generate_site` and `save_zip` -/

/-- C5: whenever the HTTP response status is outside the success range
200-299, generate_site returns the status error (naming that status), for
every response body whatsoever — in particular it does not depend on, and
so never attempts to decode, the body, and never reaches triple
extraction. -/
theorem generate_site_error_status (args : GenerateArgs)
    (env : Option (List Char)) (st : Nat) (body : List Char)
    (hbad : statusIsSuccess st = false) :
    (generate_site args env (fun _ => .ok ⟨st, body⟩)).result =
      .err (.errorStatus st) := by
  simp [generate_site, hbad]

/-- Witness for C5: a 500 response whose body would decode fine still
yields the status error. -/
theorem generate_site_error_status_witness :
    (generate_site ⟨"p".data, "m".data, "0.7".data⟩ none
        (fun _ => .ok ⟨500, "\x7b\"response\":\"ok\"\x7d".data⟩)).result =
      .err (.errorStatus 500) :=
  generate_site_error_status ⟨"p".data, "m".data, "0.7".data⟩ none 500
    ("\x7b\"response\":\"ok\"\x7d".data) (by decide)

/-- C6: every generate_site call sends a POST to {base}/api/generate where
base is the OLLAMA_BASE_URL override when set and http://127.0.0.1:11434
otherwise, with JSON body {model, prompt, stream: false,
options: {temperature}}, the prompt being the fixed system-instruction
block, a blank line, "USER PROMPT:" and the user's prompt. -/
theorem generate_site_request (args : GenerateArgs)
    (env : Option (List Char))
    (net : HttpRequest → Except (List Char) HttpResponse) :
    (generate_site args env net).request =
      { method := "POST".data
        url := (match env with
          | some b => b
          | none => "http://127.0.0.1:11434".data) ++ "/api/generate".data
        body := Json.obj
          [("model".data, Json.str args.model),
           ("prompt".data, Json.str
              (SYSTEM_INSTRUCTIONS ++ "\n\nUSER PROMPT:\n".data ++ args.prompt)),
           ("stream".data, Json.bool false),
           ("options".data,
             Json.obj [("temperature".data, Json.num args.temperature)])] } :=
  rfl

/-- C7: when the user cancels the save dialog, save_zip returns the literal
"canceled" error, the filesystem is untouched, and "canceled" is
distinguishable from every write-failure message. -/
theorem save_zip_canceled (default_name : Option (List Char))
    (bytes : List Nat) (dialog : List Char → Option DialogFilePath)
    (writeErr : Option (List Char)) (fs : FS)
    (hcancel : dialog (dialogDefaultName default_name) = none) :
    (save_zip default_name bytes dialog writeErr fs).result =
        .error ("canceled".data) ∧
    (save_zip default_name bytes dialog writeErr fs).fs = fs ∧
    ∀ e : List Char, ("canceled".data : List Char) ≠ "write failed: ".data ++ e := by
  refine ⟨?_, ?_, ?_⟩
  · unfold save_zip
    rw [hcancel]
  · unfold save_zip
    rw [hcancel]
  · intro e h
    have h2 : some 'c' = some 'w' := by
      calc some 'c' = ("canceled".data : List Char).head? := rfl
        _ = ("write failed: ".data ++ e).head? := by rw [h]
        _ = some 'w' := rfl
    simp at h2

/-- Witness for C7: a dialog that always cancels. -/
theorem save_zip_canceled_witness :
    (save_zip (some ("my.zip".data)) [1, 2] (fun _ => none) none
        (fun _ => none)).result = .error ("canceled".data) ∧
    (save_zip (some ("my.zip".data)) [1, 2] (fun _ => none) none
        (fun _ => none)).fs = (fun _ => none) ∧
    ∀ e : List Char, ("canceled".data : List Char) ≠ "write failed: ".data ++ e :=
  save_zip_canceled (some ("my.zip".data)) [1, 2] (fun _ => none) none
    (fun _ => none) rfl

/-- C8: whenever save_zip succeeds and returns a path, reading that path in
the resulting filesystem yields exactly the byte sequence that was passed
in, whatever the file previously held. -/
theorem save_zip_roundtrip (default_name : Option (List Char))
    (bytes : List Nat) (dialog : List Char → Option DialogFilePath)
    (writeErr : Option (List Char)) (fs : FS) (p : List Char)
    (hok : (save_zip default_name bytes dialog writeErr fs).result = .ok p) :
    (save_zip default_name bytes dialog writeErr fs).fs p = some bytes := by
  unfold save_zip at hok ⊢
  revert hok
  cases hd : dialog (dialogDefaultName default_name) with
  | none => intro hok; simp at hok
  | some filePath =>
    cases filePath with
    | path q =>
      cases writeErr with
      | some e => intro hok; simp [resolveDialogPath] at hok
      | none =>
        intro hok
        simp only [resolveDialogPath, Except.ok.injEq] at hok
        subst hok
        simp [resolveDialogPath]
    | url conv =>
      cases conv with
      | none => intro hok; simp [resolveDialogPath] at hok
      | some q =>
        cases writeErr with
        | some e => intro hok; simp [resolveDialogPath] at hok
        | none =>
          intro hok
          simp only [resolveDialogPath, Except.ok.injEq] at hok
          subst hok
          simp [resolveDialogPath]

/-- Witness for C8: saving the bytes 80 75 3 4 to a chosen path and reading
the path back. -/
theorem save_zip_roundtrip_witness :
    (save_zip none [80, 75, 3, 4]
        (fun _ => some (DialogFilePath.path ("/tmp/site.zip".data)))
        none (fun _ => none)).fs ("/tmp/site.zip".data) =
      some [80, 75, 3, 4] :=
  save_zip_roundtrip none [80, 75, 3, 4]
    (fun _ => some (DialogFilePath.path ("/tmp/site.zip".data)))
    none (fun _ => none) ("/tmp/site.zip".data) rfl

/-- C9: the save dialog is pre-filled with the given default_name when it
is Some, and with "site.zip" when it is None. -/
theorem save_zip_prefill (default_name : Option (List Char))
    (bytes : List Nat) (dialog : List Char → Option DialogFilePath)
    (writeErr : Option (List Char)) (fs : FS) :
    (save_zip default_name bytes dialog writeErr fs).prefill =
      match default_name with
      | some n => n
      | none => "site.zip".data := by
  show (save_zip default_name bytes dialog writeErr fs).prefill =
    dialogDefaultName default_name
  unfold save_zip
  cases hd : dialog (dialogDefaultName default_name) with
  | none => rfl
  | some filePath =>
    cases filePath with
    | path p => cases writeErr <;> rfl
    | url conv =>
      cases conv with
      | none => rfl
      | some p => cases writeErr <;> rfl
